/-
Verification of the Strategy & Risk Engine of a momentum/mean-reversion
trading bot, shallowly embedded in Lean 4.

Numbers: the JS code computes with IEEE doubles; we embed all numeric
quantities as exact rationals (ℚ).  `Number.prototype.toFixed(d)` is
modelled as rounding to the nearest multiple of `10⁻ᵈ` (ties towards
+∞, matching the ECMA "pick the larger n" rule) via `toFixed`.
`Math.sqrt` has no rational-valued counterpart; where the code uses it
(the mean-reversion indicators) the embedding is parametric in an
arbitrary function `sqrtQ : ℚ → ℚ`, and every theorem quantifies over
it.  JS `x || fallback` on numbers (falsy = 0/undefined) is `jsOr` /
`jsOrNull`.
-/
import Mathlib

namespace TradingBot

/-- `x.toFixed(d)` then `Number(...)`: round to `d` decimal places,
ties upward (`round x = ⌊x + 1/2⌋`). -/
def toFixed (d : ℕ) (x : ℚ) : ℚ := (round (x * 10 ^ d) : ℤ) / 10 ^ d

/-- JS `x || dflt` for a possibly-undefined number `x` (0 and
`undefined` are falsy). -/
def jsOr (x : Option ℚ) (dflt : ℚ) : ℚ :=
  match x with
  | none => dflt
  | some v => if v = 0 then dflt else v

/-- JS `x || null` for a possibly-undefined number `x`. -/
def jsOrNull (x : Option ℚ) : Option ℚ :=
  match x with
  | none => none
  | some v => if v = 0 then none else some v

/-! ## Risk manager (`src/risk.js`) and state store (`src/state.js`) -/

/-- The `config.risk` block of `config.json` (the file is not part of
the sources; its fields are read by `risk.js`). -/
structure RiskConfig where
  portfolioKillSwitchPercent : ℚ
  maxPositions : ℕ
  maxPositionSize : ℚ
  stopLossPercent : ℚ
  takeProfitPercent : ℚ
  deriving DecidableEq, Repr

/-- An open position as stored in `state.positions`. -/
structure Position where
  id : String
  token : String
  mint : String
  entryPrice : ℚ
  amount : ℚ
  usdcSpent : ℚ
  stopLoss : ℚ
  takeProfit : ℚ
  deriving DecidableEq, Repr

/-- A closed trade: the position spread together with the close data
(`closePosition` in `state.js`). -/
structure ClosedTrade where
  pos : Position
  exitPrice : ℚ
  usdcReceived : ℚ
  pnl : ℚ
  pnlPercent : ℚ
  reason : String
  deriving DecidableEq, Repr

/-- The persisted bot state (`DEFAULT_STATE` shape in `state.js`). -/
structure BotState where
  capitalUsdc : ℚ
  initialCapital : ℚ
  positions : List Position
  closedTrades : List ClosedTrade
  totalPnl : ℚ
  tradeCount : ℕ
  killSwitchTriggered : Bool
  deriving DecidableEq, Repr

/-- `triggerKillSwitch` from `state.js`. -/
def triggerKillSwitch (s : BotState) : BotState :=
  { s with killSwitchTriggered := true }

/-- Result of `canOpenPosition`: `{ allowed, reason?, maxSize? }`.
Denied branches do not set `maxSize`; the reason strings drop the
interpolated numbers of the JS template literals. -/
structure GateResult where
  allowed : Bool
  reason : Option String
  maxSize : Option ℚ
  deriving DecidableEq, Repr

/-- `canOpenPosition` from `risk.js`.  It can mutate the state (the
kill-switch latch), so it returns the updated state as well. -/
def canOpenPosition (cfg : RiskConfig) (s : BotState) : GateResult × BotState :=
  if s.killSwitchTriggered then
    ({ allowed := false, reason := some "Kill switch active", maxSize := none }, s)
  else
    let pnlPercent := s.totalPnl / s.initialCapital * 100
    if pnlPercent ≤ cfg.portfolioKillSwitchPercent then
      ({ allowed := false, reason := some "Kill switch triggered", maxSize := none },
        triggerKillSwitch s)
    else if cfg.maxPositions ≤ s.positions.length then
      ({ allowed := false, reason := some "Max positions reached", maxSize := none }, s)
    else if s.capitalUsdc < 5 then
      ({ allowed := false, reason := some "Insufficient capital", maxSize := none }, s)
    else
      ({ allowed := true, reason := none,
         maxSize := some (min cfg.maxPositionSize s.capitalUsdc) }, s)

/-- `calculatePositionSize` from `risk.js`.  `if (!maxSize) return 0`
is falsy on both an absent and a zero `maxSize`. -/
def calculatePositionSize (cfg : RiskConfig) (s : BotState) (score : ℚ) : ℚ :=
  match (canOpenPosition cfg s).1.maxSize with
  | none => 0
  | some maxSize =>
    if maxSize = 0 then 0
    else
      let scaleFactor := 1 / 2 + score / 100 * (1 / 2)
      min maxSize (toFixed 2 (maxSize * scaleFactor))

/-- `calculateSLTP` from `risk.js`; the strategy is the JS string. -/
def calculateSLTP (cfg : RiskConfig) (entryPrice : ℚ) (strategy : String) : ℚ × ℚ :=
  if strategy = "meanReversion" then
    (entryPrice * (92 / 100), entryPrice * (110 / 100))
  else
    (entryPrice * (1 + cfg.stopLossPercent / 100),
     entryPrice * (1 + cfg.takeProfitPercent / 100))

/-- `addPosition` from `state.js`. -/
def addPosition (s : BotState) (pos : Position) : BotState :=
  { s with positions := s.positions ++ [pos], tradeCount := s.tradeCount + 1 }

/-- `closePosition` from `state.js`: find the position by id, splice it
out, append the closed record and update the running totals (both
totals go through `toFixed(4)`). -/
def closePosition (s : BotState) (posId : String) (exitPrice usdcReceived : ℚ)
    (reason : String) : Option ClosedTrade × BotState :=
  match s.positions.findIdx? (fun p => p.id = posId) with
  | none => (none, s)
  | some idx =>
    match s.positions[idx]? with
    | none => (none, s)
    | some pos =>
      let pnl := usdcReceived - pos.usdcSpent
      let pnlPercent := pnl / pos.usdcSpent * 100
      let closed : ClosedTrade :=
        { pos := pos, exitPrice := exitPrice, usdcReceived := usdcReceived,
          pnl := toFixed 4 pnl, pnlPercent := toFixed 2 pnlPercent, reason := reason }
      (some closed,
        { s with
          positions := s.positions.eraseIdx idx,
          closedTrades := s.closedTrades ++ [closed],
          totalPnl := toFixed 4 (s.totalPnl + pnl),
          capitalUsdc := toFixed 4 (s.capitalUsdc + usdcReceived) })

/-- `deductCapital` from `state.js`. -/
def deductCapital (s : BotState) (amount : ℚ) : BotState :=
  { s with capitalUsdc := toFixed 4 (s.capitalUsdc - amount) }

/-- The state-mutating operations available against the store within a
process lifetime (`state.js` exports plus the gate's own latch write;
`loadState` only runs at process start). -/
inductive StoreOp where
  | add (pos : Position)
  | close (posId : String) (exitPrice usdcReceived : ℚ) (reason : String)
  | deduct (amount : ℚ)
  | kill
  | gate (cfg : RiskConfig)
  deriving Repr

/-- Apply one store operation. -/
def applyOp (s : BotState) : StoreOp → BotState
  | .add pos => addPosition s pos
  | .close posId e r reason => (closePosition s posId e r reason).2
  | .deduct a => deductCapital s a
  | .kill => triggerKillSwitch s
  | .gate cfg => (canOpenPosition cfg s).2

/-- Apply a sequence of store operations, first element first. -/
def applyOps (s : BotState) : List StoreOp → BotState
  | [] => s
  | op :: rest => applyOps (applyOp s op) rest

/-! ## Grid engine (`src/grid.js`) -/

/-- The `config.grid` block (`spreadPercent`, `levels`,
`capitalPerLevel`, `maxCapital`, with the defaults from `grid.js`). -/
structure GridConfig where
  spreadPercent : ℚ
  levels : ℕ
  capitalPerLevel : ℚ
  maxCapital : ℚ
  deriving DecidableEq, Repr

/-- The unsorted level list built by the loop in
`calculateGridLevels` before the ascending sort. -/
def rawGridLevels (basePrice spreadPct : ℚ) (levels : ℕ) : List ℚ :=
  let multiplier := spreadPct / 100
  [basePrice] ++ (List.range' 1 levels).flatMap
    (fun i => [basePrice * (1 + multiplier * i), basePrice * (1 - multiplier * i)])

/-- `calculateGridLevels` from `grid.js`: base price, `levels` prices
above and `levels` prices below, sorted ascending. -/
def calculateGridLevels (basePrice spreadPct : ℚ) (levels : ℕ) : List ℚ :=
  (rawGridLevels basePrice spreadPct levels).mergeSort (fun a b => a ≤ b)

/-- One element of `filledBuys` (the `txId`/`boughtAt` strings carry no
logic and are dropped). -/
structure FilledBuy where
  level : ℚ
  sellLevel : ℚ
  amount : ℚ
  usdcSpent : ℚ
  deriving DecidableEq, Repr

/-- Per-token grid state (`GridTokenState` in `grid.js`). -/
structure GridTokenState where
  token : String
  mint : String
  basePrice : ℚ
  gridLevels : List ℚ
  filledBuys : List FilledBuy
  lastPrice : ℚ
  active : Bool
  capitalPerLevel : ℚ
  pnl : ℚ
  trades : ℕ
  deriving DecidableEq, Repr

/-- The grid-wide totals of `state.grid` (the per-mint `tokens` map is
represented by passing the single token state `checkGrid` reads). -/
structure GridPortfolio where
  totalPnl : ℚ
  totalTrades : ℕ
  capitalAllocated : ℚ
  deriving DecidableEq, Repr

/-- `findGridLevel`'s loop body, walking the level list in index order:
each level `≤ price` overwrites `(buyLevel, sellLevel)`, where
`sellLevel` is `gridLevels[i+1] || null`. -/
def findGridLevelGo (price : ℚ) : List ℚ → Option ℚ × Option ℚ → Option ℚ × Option ℚ
  | [], acc => acc
  | l :: rest, acc =>
    findGridLevelGo price rest (if l ≤ price then (some l, jsOrNull rest.head?) else acc)

/-- `findGridLevel` from `grid.js`. -/
def findGridLevel (price : ℚ) (gridLevels : List ℚ) : Option ℚ × Option ℚ :=
  findGridLevelGo price gridLevels (none, none)

/-- Result of `executeSell`; `usdcReceived` may be absent (the code
falls back through `||`). -/
structure SellResult where
  success : Bool
  usdcReceived : Option ℚ
  deriving DecidableEq, Repr

/-- Result of `executeBuy`. -/
structure BuyResult where
  success : Bool
  outputAmount : ℚ
  deriving DecidableEq, Repr

/-- The running totals mutated by `checkGrid`'s sell loop. -/
structure GridTotals where
  tokenPnl : ℚ
  tokenTrades : ℕ
  totalPnl : ℚ
  totalTrades : ℕ
  capitalAllocated : ℚ
  deriving DecidableEq, Repr

/-- The sell loop of `checkGrid` (`for i = length-1 … 0`): the JS loop
visits the highest index first, so the head of the list is processed
last; a successful sell at index `i` splices that element out, adds the
PnL to both totals and releases `usdcSpent` before re-reserving
`capitalPerLevel`. -/
def sellPass (sellEnv : FilledBuy → SellResult) (currentPrice capitalPerLevel : ℚ) :
    List FilledBuy → GridTotals → List FilledBuy × GridTotals
  | [], t => ([], t)
  | b :: rest, t =>
    let r := sellPass sellEnv currentPrice capitalPerLevel rest t
    if b.sellLevel ≤ currentPrice then
      if (sellEnv b).success then
        let usdcReceived := jsOr (sellEnv b).usdcReceived (b.usdcSpent * (currentPrice / b.level))
        let pnl := usdcReceived - b.usdcSpent
        (r.1,
          { tokenPnl := r.2.tokenPnl + pnl
            tokenTrades := r.2.tokenTrades + 1
            totalPnl := r.2.totalPnl + pnl
            totalTrades := r.2.totalTrades + 1
            capitalAllocated := max 0 (r.2.capitalAllocated - b.usdcSpent) + capitalPerLevel })
      else (b :: r.1, r.2)
    else (b :: r.1, r.2)

/-- The buy half of `checkGrid` (after the sell loop): find the buy
and sell levels for the current price, require a downward cross, no
duplicate fill within 0.5 %, enough grid capital and a successful
`executeBuy`, then record the filled buy and reserve another
`capitalPerLevel`. -/
def buyPhase (gcfg : GridConfig) (buyRes : BuyResult) (prevPrice currentPrice : ℚ)
    (tg : GridTokenState) (g : GridPortfolio) : GridTokenState × GridPortfolio :=
  match findGridLevel currentPrice tg.gridLevels with
  | (some buyLevel, some sellLevel) =>
    -- `if (!buyLevel || !sellLevel) return` — a zero buy level is falsy
    if buyLevel = 0 then (tg, g)
    else if prevPrice > buyLevel ∧ currentPrice ≤ buyLevel * (1002 / 1000) then
      if tg.filledBuys.any (fun b => |b.level - buyLevel| / buyLevel < 5 / 1000) then
        (tg, g)
      else if gcfg.maxCapital - g.capitalAllocated < tg.capitalPerLevel then (tg, g)
      else if buyRes.success then
        ({ tg with filledBuys := tg.filledBuys ++
            [{ level := buyLevel, sellLevel := sellLevel,
               amount := buyRes.outputAmount, usdcSpent := tg.capitalPerLevel }] },
         { g with capitalAllocated := g.capitalAllocated + tg.capitalPerLevel })
      else (tg, g)
    else (tg, g)
  | _ => (tg, g)

/-- `checkGrid` from `grid.js`, for one token.  `priceData` is the
`getTokenPrice` result (`none` = fetch failure), `sellEnv`/`buyRes`
the `executeSell`/`executeBuy` outcomes.  Returns the updated token
state and grid totals. -/
def checkGrid (gcfg : GridConfig) (sellEnv : FilledBuy → SellResult) (buyRes : BuyResult)
    (priceData : Option ℚ) (tg : GridTokenState) (g : GridPortfolio) :
    GridTokenState × GridPortfolio :=
  if !tg.active then (tg, g)
  else
    match priceData with
    | none => (tg, g)
    | some currentPrice =>
      let prevPrice := tg.lastPrice
      let tg1 := { tg with lastPrice := currentPrice }
      let t0 : GridTotals :=
        { tokenPnl := tg1.pnl, tokenTrades := tg1.trades, totalPnl := g.totalPnl,
          totalTrades := g.totalTrades, capitalAllocated := g.capitalAllocated }
      let sold := sellPass sellEnv currentPrice tg1.capitalPerLevel tg1.filledBuys t0
      let tg2 := { tg1 with filledBuys := sold.1, pnl := sold.2.tokenPnl,
                            trades := sold.2.tokenTrades }
      let g2 : GridPortfolio :=
        { totalPnl := sold.2.totalPnl, totalTrades := sold.2.totalTrades,
          capitalAllocated := sold.2.capitalAllocated }
      buyPhase gcfg buyRes prevPrice currentPrice tg2 g2

/-! ## Signal engine (`src/signals.js`) -/

/-- A candidate token snapshot as delivered by the scanner; `buys` and
`sells` are the `txns24h` counters (`|| 0` of the JS is the zero
default of total fields). -/
structure Token where
  token : String
  mint : String
  price : ℚ
  liquidity : ℚ
  volume24h : ℚ
  volume6h : ℚ
  volume1h : ℚ
  priceChange24h : ℚ
  priceChange6h : ℚ
  priceChange1h : ℚ
  buys : ℕ
  sells : ℕ
  deriving DecidableEq, Repr

/-- A produced signal (the `reasons` strings and raw `indicators` carry
no decision logic and are dropped). -/
structure Signal where
  score : ℕ
  strategy : String
  token : String
  mint : String
  price : ℚ
  deriving DecidableEq, Repr

/-- `Math.max(0, Math.min(100, Math.round(score)))`. -/
def clampScore (x : ℚ) : ℕ := (max 0 (min 100 (round x))).toNat

/-- `analyzeMomentum` from `signals.js`; `spikeMult` is
`config.filters.volumeSpikeMultiplier`. -/
def analyzeMomentum (spikeMult : ℚ) (t : Token) : Signal :=
  let score : ℚ := 0
  let avg6hPerHour := t.volume6h / 6
  let score := if avg6hPerHour > 0 ∧ t.volume1h > avg6hPerHour * spikeMult then
      score + min 30 (t.volume1h / avg6hPerHour * 10) else score
  let buys : ℚ := t.buys
  let sells : ℚ := t.sells
  let score := if buys + sells > 0 ∧ buys / (buys + sells) > 55 / 100 then
      score + min 25 ((buys / (buys + sells) - 1 / 2) * 100) else score
  let score := if t.priceChange1h > 2 then score + min 20 (t.priceChange1h * 2) else score
  let score := if t.priceChange6h > 0 ∧ t.priceChange24h > 0 then score + 10 else score
  let score := if t.liquidity > 5000000 then score + 5 else score
  let score := if t.priceChange1h > 5 ∧ t.volume1h > 100000 then score + 10 else score
  let score := if t.priceChange1h < -3 then score - 20 else score
  let score := if sells > buys * (3 / 2) then score - 15 else score
  { score := clampScore score, strategy := "momentum",
    token := t.token, mint := t.mint, price := t.price }

/-- A timestamped price sample. -/
structure PricePoint where
  price : ℚ
  ts : ℤ
  deriving DecidableEq, Repr

/-- The module-level `priceHistory` map, as an association list. -/
abbrev PriceHistory := List (String × List PricePoint)

/-- `priceHistory.get(mint)`, defaulting to the empty history. -/
def histGet (h : PriceHistory) (mint : String) : List PricePoint :=
  (h.lookup mint).getD []

/-- Store a mint's history back into the map. -/
def histSet : PriceHistory → String → List PricePoint → PriceHistory
  | [], mint, l => [(mint, l)]
  | (m, v) :: rest, mint, l =>
    if m = mint then (m, l) :: rest else (m, v) :: histSet rest mint l

/-- `recordPrice` from `signals.js`: push `{price, ts: now}` and shift
off leading entries older than the 24 h window. -/
def recordPrice (h : PriceHistory) (mint : String) (price : ℚ) (now : ℤ) : PriceHistory :=
  let hist := histGet h mint ++ [{ price := price, ts := now }]
  let cutoff := now - 86400000
  histSet h mint (hist.dropWhile (fun p => p.ts < cutoff))

/-- The record returned by `getMeanReversionIndicators`. -/
structure MRIndicators where
  sma : ℚ
  stdDev : ℚ
  zScore : ℚ
  rsi : ℚ
  deviationPct : ℚ
  dropFromHigh : ℚ
  dataPoints : ℕ
  deriving DecidableEq, Repr

/-- `getMeanReversionIndicators` from `signals.js`; `Math.sqrt` is the
abstract `sqrtQ`. -/
def getMeanReversionIndicators (sqrtQ : ℚ → ℚ) (h : PriceHistory) (mint : String)
    (currentPrice : ℚ) : Option MRIndicators :=
  let hist := histGet h mint
  if hist.length < 20 then none
  else
    let prices := hist.map (fun p => p.price)
    let n := prices.length
    let sma := prices.sum / (n : ℚ)
    let variance := (prices.map (fun p => (p - sma) ^ 2)).sum / (n : ℚ)
    let stdDev := sqrtQ variance
    let zScore := if stdDev > 0 then (currentPrice - sma) / stdDev else 0
    let rsiPeriod := min 14 (n - 1)
    let lastP := prices.drop (n - rsiPeriod - 1)
    let diffs := List.zipWith (fun a b => b - a) lastP lastP.tail
    let gains := (diffs.map (fun d => if d > 0 then d else 0)).sum
    let losses := (diffs.map (fun d => if d > 0 then 0 else |d|)).sum
    let avgGain := gains / rsiPeriod
    let avgLoss := losses / rsiPeriod
    let rs := if avgLoss > 0 then avgGain / avgLoss else 100
    let rsi := 100 - 100 / (1 + rs)
    let deviationPct := (currentPrice - sma) / sma * 100
    let recentPrices := prices.drop (n - min 48 n)
    let recentHigh := recentPrices.foldl max (recentPrices.headD 0)
    let dropFromHigh := (currentPrice - recentHigh) / recentHigh * 100
    some { sma := sma, stdDev := stdDev, zScore := zScore, rsi := rsi,
           deviationPct := deviationPct, dropFromHigh := dropFromHigh, dataPoints := n }

/-- `analyzeMeanReversion` from `signals.js`.  It records the price
(mutating the history) before reading the indicators, so it returns the
updated history too. -/
def analyzeMeanReversion (sqrtQ : ℚ → ℚ) (now : ℤ) (h : PriceHistory) (t : Token) :
    Signal × PriceHistory :=
  let h1 := recordPrice h t.mint t.price now
  let mr := getMeanReversionIndicators sqrtQ h1 t.mint t.price
  let score : ℚ := 0
  let score := match mr with
    | some mr =>
      let score := if mr.zScore < -(3 / 2) then score + min 30 (|mr.zScore| * 12)
        else if mr.zScore < -1 then score + min 15 (|mr.zScore| * 8) else score
      let score := if mr.rsi < 25 then score + 25
        else if mr.rsi < 35 then score + 15 else score
      let score := if mr.dropFromHigh < -10 then score + 15
        else if mr.dropFromHigh < -5 then score + 8 else score
      if mr.zScore > 1 / 2 then score - 30 else score
    | none =>
      let score := if t.priceChange24h < -10 then score + 20
        else if t.priceChange24h < -5 then score + 10 else score
      let score := if t.priceChange6h < -8 then score + 15
        else if t.priceChange6h < -4 then score + 8 else score
      if t.priceChange1h > 0 ∧ t.priceChange6h < -5 then score + 10 else score
  let score := if t.volume1h > 50000 then score + 5
    else if t.volume1h < 10000 then score - 10 else score
  let buys : ℚ := t.buys
  let sells : ℚ := t.sells
  let score := if buys + sells > 0 ∧ buys / (buys + sells) > 1 / 2 ∧ t.priceChange24h < -5 then
      score + 10 else score
  let score := if t.liquidity > 5000000 then score + 5 else score
  let score := if t.priceChange1h < -5 ∧ t.priceChange6h < -10 then score - 25 else score
  ({ score := clampScore score, strategy := "meanReversion",
     token := t.token, mint := t.mint, price := t.price }, h1)

/-- The candidate loop of `detectSignals`: record a sample for every
candidate, run both scorers, keep scores `≥ 35` in push order
(momentum before mean reversion per candidate). -/
def collectSignals (sqrtQ : ℚ → ℚ) (spikeMult : ℚ) (now : ℤ) :
    List Token → PriceHistory → List Signal × PriceHistory
  | [], h => ([], h)
  | t :: rest, h =>
    let h1 := recordPrice h t.mint t.price now
    let mom := analyzeMomentum spikeMult t
    let mrr := analyzeMeanReversion sqrtQ now h1 t
    let r := collectSignals sqrtQ spikeMult now rest mrr.2
    ((if 35 ≤ mom.score then [mom] else []) ++
     (if 35 ≤ mrr.1.score then [mrr.1] else []) ++ r.1, r.2)

/-- The dedup loop of `detectSignals`: a `seen` set of mints, keeping
the first occurrence in sorted order. -/
def dedupByMint : List Signal → List String → List Signal
  | [], _ => []
  | s :: rest, seen =>
    if s.mint ∈ seen then dedupByMint rest seen
    else s :: dedupByMint rest (s.mint :: seen)

/-- `detectSignals` from `signals.js`: collect, sort descending by
score (`(a, b) => b.score - a.score`, a stable sort), dedup by mint. -/
def detectSignals (sqrtQ : ℚ → ℚ) (spikeMult : ℚ) (now : ℤ) (candidates : List Token)
    (h0 : PriceHistory) : List Signal × PriceHistory :=
  let collected := collectSignals sqrtQ spikeMult now candidates h0
  let sorted := collected.1.mergeSort (fun a b => b.score ≤ a.score)
  (dedupByMint sorted [], collected.2)

/-- `getShortPnl` from `drift.js`; only the fields it reads. -/
structure ShortPos where
  entryPrice : ℚ
  usdcSpent : ℚ
  deriving DecidableEq, Repr

/-- `getShortPnl(shortPos, currentPrice)` from `drift.js`. -/
def getShortPnl (shortPos : ShortPos) (currentPrice : ℚ) : ℚ × ℚ :=
  let priceDiff := shortPos.entryPrice - currentPrice
  ((priceDiff / shortPos.entryPrice) * shortPos.usdcSpent,
   (priceDiff / shortPos.entryPrice) * 100)

/-! ## Concrete instances used by witnesses and counterexamples -/

/-- The configuration of the README / §8 scenario: kill switch −30 %,
max 3 positions, max position $50, SL −15 %, TP +30 %. -/
def cfgDemo : RiskConfig :=
  { portfolioKillSwitchPercent := -30, maxPositions := 3, maxPositionSize := 50,
    stopLossPercent := -15, takeProfitPercent := 30 }

/-- Fresh $100 portfolio. -/
def stateDemo : BotState :=
  { capitalUsdc := 100, initialCapital := 100, positions := [], closedTrades := [],
    totalPnl := 0, tradeCount := 0, killSwitchTriggered := false }

/-- A portfolio whose kill switch has tripped. -/
def killState : BotState :=
  { capitalUsdc := 40, initialCapital := 100, positions := [], closedTrades := [],
    totalPnl := 20, tradeCount := 2, killSwitchTriggered := true }

/-- The §8 position: $45 spent at entry $1.00. -/
def pos45 : Position :=
  { id := "p1", token := "TOK", mint := "M1", entryPrice := 1, amount := 45,
    usdcSpent := 45, stopLoss := 85 / 100, takeProfit := 130 / 100 }

/-- Portfolio right after the §8 buy: $55 capital, `pos45` open. -/
def state55 : BotState :=
  { capitalUsdc := 55, initialCapital := 100, positions := [pos45], closedTrades := [],
    totalPnl := 0, tradeCount := 1, killSwitchTriggered := false }

/-- A position whose `usdcSpent` is $1 (counterexample to exact
totals). -/
def posTiny : Position :=
  { id := "p1", token := "TOK", mint := "M1", entryPrice := 1, amount := 1,
    usdcSpent := 1, stopLoss := 85 / 100, takeProfit := 130 / 100 }

/-- Portfolio holding `posTiny`. -/
def stateTiny : BotState :=
  { capitalUsdc := 0, initialCapital := 100, positions := [posTiny], closedTrades := [],
    totalPnl := 0, tradeCount := 1, killSwitchTriggered := false }

/-- Operations replayed against `killState` in the C3 witness. -/
def opsDemo : List StoreOp :=
  [.deduct 10, .add pos45, .close "p1" (13 / 10) (585 / 10) "TAKE_PROFIT", .gate cfgDemo]

/-- Amounts expressible with four decimal places — the grid on which
the `toFixed(4)` total updates of `closePosition` are exact. -/
def FourDecimal (x : ℚ) : Prop := ∃ n : ℤ, x = n / 10000

/-- A well-formed filled buy with respect to a grid's level list: its
buy level and sell level are grid levels, the sell level lies strictly
above the buy level, and the buy level is not the topmost level. -/
def GoodBuy (levels : List ℚ) (b : FilledBuy) : Prop :=
  b.level ∈ levels ∧ b.sellLevel ∈ levels ∧ b.level < b.sellLevel ∧
  ∀ top ∈ levels, (∀ x ∈ levels, x ≤ top) → b.level ≠ top

/-- Grid config used in the concrete grid runs: 2 % spread, 5 levels,
$5 per level, $30 cap (the `grid.js` defaults). -/
def gcfgDemo : GridConfig :=
  { spreadPercent := 2, levels := 5, capitalPerLevel := 5, maxCapital := 30 }

/-- Sell environment for the concrete runs: every `executeSell`
succeeds and returns $5.10. -/
def sellEnvDemo : FilledBuy → SellResult := fun _ => { success := true, usdcReceived := some (51 / 10) }

/-- Buy environment for the concrete runs: `executeBuy` succeeds with
7 tokens out. -/
def buyResDemo : BuyResult := { success := true, outputAmount := 7 }

/-- A token grid over the levels 98/100/102 whose last observed price
was 101, with no filled buys yet. -/
def tgDemo : GridTokenState :=
  { token := "TOK", mint := "M1", basePrice := 100, gridLevels := [98, 100, 102],
    filledBuys := [], lastPrice := 101, active := true, capitalPerLevel := 5,
    pnl := 0, trades := 0 }

/-- Grid totals as `setupGrid` leaves them with the demo config:
`capitalPerLevel × levels = $25` already reserved of the $30 cap. -/
def gDemo : GridPortfolio := { totalPnl := 0, totalTrades := 0, capitalAllocated := 25 }

/-- An oversold candidate token (falling 24 h/6 h price, early 1 h
bounce, healthy volume and liquidity) used in the C6 witness. -/
def tokDemo : Token :=
  { token := "TOK", mint := "M1", price := 1, liquidity := 6000000, volume24h := 1000000,
    volume6h := 600000, volume1h := 60000, priceChange24h := -12, priceChange6h := -9,
    priceChange1h := 1, buys := 60, sells := 40 }

/-- The filled buy recorded by the first tick of the round trip. -/
def fbDemo : FilledBuy := { level := 100, sellLevel := 102, amount := 7, usdcSpent := 5 }

/-- Token grid expected after the buy tick. -/
def tgAfterBuy : GridTokenState := { tgDemo with lastPrice := 100, filledBuys := [fbDemo] }

/-- Token grid expected after the sell tick. -/
def tgAfterSell : GridTokenState :=
  { tgDemo with lastPrice := 102, filledBuys := [], pnl := 1 / 10, trades := 1 }

/-- Token grid expected after the third (re-buy attempt) tick. -/
def tgAfterThird : GridTokenState :=
  { tgDemo with lastPrice := 100, filledBuys := [], pnl := 1 / 10, trades := 1 }

/-- First tick of the round trip: price drops to 100, the buy at level
100 fires (sell target 102). -/
def gridStep1 : GridTokenState × GridPortfolio :=
  checkGrid gcfgDemo sellEnvDemo buyResDemo (some 100) tgDemo gDemo

/-- Second tick: price rises to 102, the filled buy sells. -/
def gridStep2 : GridTokenState × GridPortfolio :=
  checkGrid gcfgDemo sellEnvDemo buyResDemo (some 102) gridStep1.1 gridStep1.2

/-- Third tick: price crosses down through 100 again — the level
should be able to buy again. -/
def gridStep3 : GridTokenState × GridPortfolio :=
  checkGrid gcfgDemo sellEnvDemo buyResDemo (some 100) gridStep2.1 gridStep2.2

end TradingBot

namespace TradingBot

/-! ## Theorems -/

/-- Helper: `toFixed` of zero is zero. -/
theorem toFixed_zero (d : ℕ) : toFixed d 0 = 0 := by
  simp [toFixed]

/-- Helper: a denied gate result carries no `maxSize`. -/
theorem gate_denied_no_maxSize (cfg : RiskConfig) (s : BotState) :
    (canOpenPosition cfg s).1.allowed = false →
    (canOpenPosition cfg s).1.maxSize = none := by
  unfold canOpenPosition
  dsimp only
  split_ifs <;> simp

/-- C2: `calculatePositionSize` returns 0 when the gate denies, and
otherwise `min maxSize (round₂ (maxSize · (0.5 + score/200)))`. -/
theorem claim_C2_position_size (cfg : RiskConfig) (s : BotState) (score : ℚ) :
    ((canOpenPosition cfg s).1.allowed = false → calculatePositionSize cfg s score = 0) ∧
    (∀ m, (canOpenPosition cfg s).1.maxSize = some m →
      calculatePositionSize cfg s score = min m (toFixed 2 (m * (1 / 2 + score / 200)))) := by
  constructor
  · intro hfalse
    have h := gate_denied_no_maxSize cfg s hfalse
    simp [calculatePositionSize, h]
  · intro m hm
    simp only [calculatePositionSize, hm]
    by_cases hz : m = 0
    · subst hz
      simp [toFixed_zero]
    · rw [if_neg hz]
      have e : m * (1 / 2 + score / 100 * (1 / 2)) = m * (1 / 2 + score / 200) := by ring
      rw [e]

/-- C2 witness: with the §8 config and a fresh $100 portfolio, a
score-80 signal sizes to `min 50 45 = 45`. -/
theorem claim_C2_position_size_witness :
    calculatePositionSize cfgDemo stateDemo 80 = min 50 (toFixed 2 (50 * (1 / 2 + 80 / 200))) ∧
    calculatePositionSize cfgDemo stateDemo 80 = 45 := by
  have h := (claim_C2_position_size cfgDemo stateDemo 80).2 50
    (by norm_num [canOpenPosition, cfgDemo, stateDemo])
  refine ⟨h, ?_⟩
  rw [h]
  norm_num [toFixed, round_eq]

/-- Helper: no store operation clears the kill-switch flag. -/
theorem applyOp_kill_mono (s : BotState) (op : StoreOp)
    (h : s.killSwitchTriggered = true) : (applyOp s op).killSwitchTriggered = true := by
  cases op with
  | add pos => simpa [applyOp, addPosition] using h
  | close posId e r reason =>
    simp only [applyOp, closePosition]
    split
    · exact h
    · split
      · exact h
      · exact h
  | deduct a => simpa [applyOp, deductCapital] using h
  | kill => simp [applyOp, triggerKillSwitch]
  | gate cfg => simp [applyOp, canOpenPosition, h]

/-- Helper: no sequence of store operations clears the kill switch. -/
theorem applyOps_kill_mono (s : BotState) (ops : List StoreOp)
    (h : s.killSwitchTriggered = true) : (applyOps s ops).killSwitchTriggered = true := by
  induction ops generalizing s with
  | nil => exact h
  | cons op rest ih => exact ih _ (applyOp_kill_mono s op h)

/-- C3: with the kill switch set, `canOpenPosition` denies with the
kill-switch reason, and after any sequence of store operations the flag
is still set and every later gate call is denied the same way. -/
theorem claim_C3_kill_switch_latch (cfg : RiskConfig) (s : BotState)
    (h : s.killSwitchTriggered = true) :
    (canOpenPosition cfg s).1 =
      { allowed := false, reason := some "Kill switch active", maxSize := none } ∧
    ∀ ops : List StoreOp,
      (applyOps s ops).killSwitchTriggered = true ∧
      (canOpenPosition cfg (applyOps s ops)).1 =
        { allowed := false, reason := some "Kill switch active", maxSize := none } := by
  refine ⟨by simp [canOpenPosition, h], fun ops => ?_⟩
  have hk := applyOps_kill_mono s ops h
  exact ⟨hk, by simp [canOpenPosition, hk]⟩

/-- C3 witness: a tripped portfolio stays tripped across a deduct, an
open, a close and a further gate call, and is denied afterwards. -/
theorem claim_C3_kill_switch_latch_witness :
    (canOpenPosition cfgDemo killState).1 =
      { allowed := false, reason := some "Kill switch active", maxSize := none } ∧
    (applyOps killState opsDemo).killSwitchTriggered = true ∧
    (canOpenPosition cfgDemo (applyOps killState opsDemo)).1 =
      { allowed := false, reason := some "Kill switch active", maxSize := none } :=
  ⟨(claim_C3_kill_switch_latch cfgDemo killState rfl).1,
   (claim_C3_kill_switch_latch cfgDemo killState rfl).2 opsDemo⟩

/-- C4: the gate applies its checks in order — kill switch already set;
PnL percentage at or below the threshold (setting the latch); max
positions; $5 dust floor; otherwise allow with
`maxSize = min maxPositionSize capitalUsdc`. -/
theorem claim_C4_gate_order (cfg : RiskConfig) (s : BotState)
    (_hinit : 0 < s.initialCapital) :
    (s.killSwitchTriggered = true →
      canOpenPosition cfg s =
        ({ allowed := false, reason := some "Kill switch active", maxSize := none }, s)) ∧
    (s.killSwitchTriggered = false →
      s.totalPnl / s.initialCapital * 100 ≤ cfg.portfolioKillSwitchPercent →
      canOpenPosition cfg s =
        ({ allowed := false, reason := some "Kill switch triggered", maxSize := none },
          triggerKillSwitch s)) ∧
    (s.killSwitchTriggered = false →
      ¬ s.totalPnl / s.initialCapital * 100 ≤ cfg.portfolioKillSwitchPercent →
      cfg.maxPositions ≤ s.positions.length →
      canOpenPosition cfg s =
        ({ allowed := false, reason := some "Max positions reached", maxSize := none }, s)) ∧
    (s.killSwitchTriggered = false →
      ¬ s.totalPnl / s.initialCapital * 100 ≤ cfg.portfolioKillSwitchPercent →
      ¬ cfg.maxPositions ≤ s.positions.length →
      s.capitalUsdc < 5 →
      canOpenPosition cfg s =
        ({ allowed := false, reason := some "Insufficient capital", maxSize := none }, s)) ∧
    (s.killSwitchTriggered = false →
      ¬ s.totalPnl / s.initialCapital * 100 ≤ cfg.portfolioKillSwitchPercent →
      ¬ cfg.maxPositions ≤ s.positions.length →
      ¬ s.capitalUsdc < 5 →
      canOpenPosition cfg s =
        ({ allowed := true, reason := none,
           maxSize := some (min cfg.maxPositionSize s.capitalUsdc) }, s)) := by
  refine ⟨fun h1 => ?_, fun h1 h2 => ?_, fun h1 h2 h3 => ?_,
    fun h1 h2 h3 h4 => ?_, fun h1 h2 h3 h4 => ?_⟩ <;>
    simp [canOpenPosition, h1, *]

/-- C4 witness: a fresh $100 portfolio passes every check and may open
up to `min 50 100 = 50`. -/
theorem claim_C4_gate_order_witness :
    canOpenPosition cfgDemo stateDemo =
      ({ allowed := true, reason := none, maxSize := some (min 50 100) }, stateDemo) :=
  ((claim_C4_gate_order cfgDemo stateDemo (by norm_num [stateDemo])).2.2.2.2)
    rfl (by norm_num [stateDemo, cfgDemo]) (by decide) (by decide)

/-- C8: for every entry price `E > 0` with configured
`stopLossPercent < 0 < takeProfitPercent`, the momentum SL/TP bracket
the entry, and mean reversion returns exactly `0.92·E` and `1.10·E`. -/
theorem claim_C8_sltp_bounds (cfg : RiskConfig) (E : ℚ) (hE : 0 < E)
    (hsl : cfg.stopLossPercent < 0) (htp : 0 < cfg.takeProfitPercent) :
    ((calculateSLTP cfg E "momentum").1 < E ∧ E < (calculateSLTP cfg E "momentum").2) ∧
    calculateSLTP cfg E "meanReversion" = (E * (92 / 100), E * (110 / 100)) := by
  have hmom : calculateSLTP cfg E "momentum" =
      (E * (1 + cfg.stopLossPercent / 100), E * (1 + cfg.takeProfitPercent / 100)) := by
    unfold calculateSLTP
    rw [if_neg (by decide)]
  have hneg : E * cfg.stopLossPercent < 0 := mul_neg_of_pos_of_neg hE hsl
  have hpos : 0 < E * cfg.takeProfitPercent := mul_pos hE htp
  refine ⟨⟨?_, ?_⟩, by simp [calculateSLTP]⟩
  · rw [hmom]
    nlinarith
  · rw [hmom]
    nlinarith

/-- C8 witness: with SL −15 % / TP +30 % at entry 100, the momentum
bracket is `85 < 100 < 130` and mean reversion gives `(92, 110)`. -/
theorem claim_C8_sltp_bounds_witness :
    (((calculateSLTP cfgDemo 100 "momentum").1 < 100 ∧
      100 < (calculateSLTP cfgDemo 100 "momentum").2) ∧
     calculateSLTP cfgDemo 100 "meanReversion" = (100 * (92 / 100), 100 * (110 / 100))) ∧
    calculateSLTP cfgDemo 100 "momentum" = (85, 130) :=
  ⟨claim_C8_sltp_bounds cfgDemo 100 (by norm_num) (by norm_num [cfgDemo])
    (by norm_num [cfgDemo]), by
      unfold calculateSLTP
      rw [if_neg (by decide)]
      norm_num [cfgDemo]⟩

/-- C9: `getShortPnl` returns
`((entry − price)/entry · usdcSpent, (entry − price)/entry · 100)`, a
falling price yields positive PnL, and the `entry=100, price=90,
usdcSpent=50` example gives `(+5, +10 %)`. -/
theorem claim_C9_short_pnl :
    (∀ (p : ShortPos) (price : ℚ), 0 < p.entryPrice →
      getShortPnl p price =
        ((p.entryPrice - price) / p.entryPrice * p.usdcSpent,
         (p.entryPrice - price) / p.entryPrice * 100) ∧
      (price < p.entryPrice →
        0 < (getShortPnl p price).2 ∧ (0 < p.usdcSpent → 0 < (getShortPnl p price).1))) ∧
    getShortPnl { entryPrice := 100, usdcSpent := 50 } 90 = (5, 10) := by
  refine ⟨fun p price hE => ⟨rfl, fun hfall => ?_⟩, by norm_num [getShortPnl]⟩
  have hratio : 0 < (p.entryPrice - price) / p.entryPrice :=
    div_pos (by linarith) hE
  exact ⟨by simpa [getShortPnl] using mul_pos hratio (by norm_num : (0 : ℚ) < 100),
    fun hspent => by simpa [getShortPnl] using mul_pos hratio hspent⟩

/-- Helper: counting entries above and below the base price in the
unsorted level list built from the index list `is`. -/
theorem countP_gridPairs (b m : ℚ) (hb : 0 < b) (hm : 0 < m) (is : List ℕ)
    (his : ∀ i ∈ is, 1 ≤ i) :
    ((is.flatMap fun i => [b * (1 + m * i), b * (1 - m * i)]).countP
        fun x => decide (b < x)) = is.length ∧
    ((is.flatMap fun i => [b * (1 + m * i), b * (1 - m * i)]).countP
        fun x => decide (x < b)) = is.length ∧
    (is.flatMap fun i => [b * (1 + m * i), b * (1 - m * i)]).length = 2 * is.length := by
  induction is with
  | nil => simp
  | cons i rest ih =>
    have hi : (1 : ℚ) ≤ (i : ℚ) := by exact_mod_cast his i (by simp)
    have hrest := ih (fun j hj => his j (by simp [hj]))
    have hmi : 0 < m * i := mul_pos hm (lt_of_lt_of_le one_pos hi)
    have habove : b < b * (1 + m * i) := by nlinarith
    have hbelow : b * (1 - m * i) < b := by nlinarith
    refine ⟨?_, ?_, ?_⟩ <;>
      simp [List.countP_cons, hrest.1, hrest.2.1, hrest.2.2, habove, hbelow,
        not_lt_of_lt habove, not_lt_of_lt hbelow, Nat.mul_succ]

/-- C5: `calculateGridLevels` returns the multiset
`{basePrice} ∪ {basePrice·(1 ± spread/100·i) : i = 1..levels}` sorted
ascending; with positive base and spread there are `levels` entries
above and `levels` below the center; and
`calculateGridLevels 100 2 3 = [94, 96, 98, 100, 102, 104, 106]`. -/
theorem claim_C5_grid_levels :
    (∀ (b s : ℚ) (l : ℕ),
      (calculateGridLevels b s l).Perm (rawGridLevels b s l) ∧
      (calculateGridLevels b s l).Sorted (· ≤ ·)) ∧
    (∀ (b s : ℚ) (l : ℕ), 0 < b → 0 < s →
      ((calculateGridLevels b s l).countP (fun x => decide (b < x)) = l ∧
       (calculateGridLevels b s l).countP (fun x => decide (x < b)) = l ∧
       (calculateGridLevels b s l).length = 2 * l + 1)) ∧
    calculateGridLevels 100 2 3 = [94, 96, 98, 100, 102, 104, 106] := by
  have hperm : ∀ (b s : ℚ) (l : ℕ),
      (calculateGridLevels b s l).Perm (rawGridLevels b s l) :=
    fun b s l => List.mergeSort_perm _ _
  refine ⟨fun b s l => ⟨hperm b s l, ?_⟩, fun b s l hb hs => ?_, ?_⟩
  · exact List.sorted_mergeSort' _
  · have hm : 0 < s / 100 := by positivity
    have hcount := countP_gridPairs b (s / 100) hb hm (List.range' 1 l)
      (fun i hi => (List.mem_range'_1.mp hi).1)
    have hlen : (List.range' 1 l).length = l := by simp
    rw [hlen] at hcount
    have e1 := (hperm b s l).countP_eq (fun x => decide (b < x))
    have e2 := (hperm b s l).countP_eq (fun x => decide (x < b))
    have e3 := (hperm b s l).length_eq
    refine ⟨?_, ?_, ?_⟩ <;>
      simp_all [rawGridLevels, List.countP_cons, lt_irrefl]
  · have hr : rawGridLevels 100 2 3 = [100, 102, 98, 104, 96, 106, 94] := by
      unfold rawGridLevels
      rw [show List.range' 1 3 = [1, 2, 3] from rfl]
      norm_num
    have hsorted₂ : List.Sorted (· ≤ ·) ([94, 96, 98, 100, 102, 104, 106] : List ℚ) := by
      norm_num [List.Sorted]
    rw [calculateGridLevels, hr]
    refine List.eq_of_perm_of_sorted ((List.mergeSort_perm _ _).trans ?_)
      (List.sorted_mergeSort' _) hsorted₂
    decide

/-- C5 witness: at `basePrice = 100`, 2 % spread, 3 levels there are
exactly 3 levels above and 3 below the center, 7 in total. -/
theorem claim_C5_grid_levels_witness :
    (calculateGridLevels 100 2 3).countP (fun x => decide ((100 : ℚ) < x)) = 3 ∧
    (calculateGridLevels 100 2 3).countP (fun x => decide (x < (100 : ℚ))) = 3 ∧
    (calculateGridLevels 100 2 3).length = 2 * 3 + 1 :=
  claim_C5_grid_levels.2.1 100 2 3 (by norm_num) (by norm_num)

/-- Helper: `toFixed 4` fixes four-decimal amounts. -/
theorem toFixed_four_eq_self (x : ℚ) (h : FourDecimal x) : toFixed 4 x = x := by
  obtain ⟨n, rfl⟩ := h
  unfold toFixed
  have h1 : (n : ℚ) / 10000 * 10 ^ 4 = (n : ℚ) := by
    norm_num
  rw [h1, round_intCast]
  norm_num

/-- Helper: four-decimal amounts are closed under addition. -/
theorem FourDecimal.add {x y : ℚ} (hx : FourDecimal x) (hy : FourDecimal y) :
    FourDecimal (x + y) := by
  obtain ⟨n, rfl⟩ := hx
  obtain ⟨m, rfl⟩ := hy
  exact ⟨n + m, by push_cast; ring⟩

/-- Helper: four-decimal amounts are closed under subtraction. -/
theorem FourDecimal.sub {x y : ℚ} (hx : FourDecimal x) (hy : FourDecimal y) :
    FourDecimal (x - y) := by
  obtain ⟨n, rfl⟩ := hx
  obtain ⟨m, rfl⟩ := hy
  exact ⟨n - m, by push_cast; ring⟩

/-- Helper: full characterisation of a successful `closePosition`
call: the closed record, the splice, the appended history, the rounded
total updates, and the exactness of those updates on the four-decimal
grid. -/
theorem closePosition_spec (s : BotState) (posId : String)
    (exitPrice usdcReceived : ℚ) (reason : String) (idx : ℕ) (pos : Position)
    (hidx : s.positions.findIdx? (fun p => p.id = posId) = some idx)
    (hpos : s.positions[idx]? = some pos) :
    (closePosition s posId exitPrice usdcReceived reason).1 =
      some { pos := pos, exitPrice := exitPrice, usdcReceived := usdcReceived,
             pnl := toFixed 4 (usdcReceived - pos.usdcSpent),
             pnlPercent := toFixed 2 ((usdcReceived - pos.usdcSpent) / pos.usdcSpent * 100),
             reason := reason } ∧
    (closePosition s posId exitPrice usdcReceived reason).2.positions =
      s.positions.eraseIdx idx ∧
    (closePosition s posId exitPrice usdcReceived reason).2.closedTrades =
      s.closedTrades ++
        [{ pos := pos, exitPrice := exitPrice, usdcReceived := usdcReceived,
           pnl := toFixed 4 (usdcReceived - pos.usdcSpent),
           pnlPercent := toFixed 2 ((usdcReceived - pos.usdcSpent) / pos.usdcSpent * 100),
           reason := reason }] ∧
    (closePosition s posId exitPrice usdcReceived reason).2.totalPnl =
      toFixed 4 (s.totalPnl + (usdcReceived - pos.usdcSpent)) ∧
    (closePosition s posId exitPrice usdcReceived reason).2.capitalUsdc =
      toFixed 4 (s.capitalUsdc + usdcReceived) ∧
    (FourDecimal s.totalPnl → FourDecimal usdcReceived → FourDecimal pos.usdcSpent →
      (closePosition s posId exitPrice usdcReceived reason).2.totalPnl =
        s.totalPnl + (usdcReceived - pos.usdcSpent)) ∧
    (FourDecimal s.capitalUsdc → FourDecimal usdcReceived →
      (closePosition s posId exitPrice usdcReceived reason).2.capitalUsdc =
        s.capitalUsdc + usdcReceived) := by
  unfold closePosition
  rw [hidx]
  dsimp only
  rw [hpos]
  refine ⟨rfl, rfl, rfl, rfl, rfl, fun h1 h2 h3 => ?_, fun h1 h2 => ?_⟩
  · exact toFixed_four_eq_self _ (h1.add (h2.sub h3))
  · exact toFixed_four_eq_self _ (h1.add h2)

/-- C7 counterexample: the claim's "increases `capitalUsdc` by
`usdcReceived`" fails for a proceeds amount with more than four decimal
places — closing a $1 position for $1.00004 credits $1.0000, not
$1.00004 (`toFixed(4)` in `closePosition`). -/
theorem claim_C7_close_position_counterexample :
    ¬ (closePosition stateTiny "p1" 1 (100004 / 100000) "TAKE_PROFIT").2.capitalUsdc =
        stateTiny.capitalUsdc + 100004 / 100000 := by
  have h := (closePosition_spec stateTiny "p1" 1 (100004 / 100000) "TAKE_PROFIT" 0 posTiny
    rfl rfl).2.2.2.2.1
  rw [h]
  norm_num [stateTiny, toFixed, round_eq]

/-- C7 (amended): a successful `closePosition` computes
`pnl = usdcReceived − usdcSpent`, appends the closed record, removes
the open position, and updates `totalPnl` by `pnl` and `capitalUsdc`
by `usdcReceived` rounded to four decimal places (exactly, whenever
the previous totals and the amounts lie on the four-decimal grid); the
§8 scenario gives capital $93.25 and `totalPnl` −$6.75. -/
theorem claim_C7_close_position (s : BotState) (posId : String)
    (exitPrice usdcReceived : ℚ) (reason : String) (idx : ℕ) (pos : Position)
    (hidx : s.positions.findIdx? (fun p => p.id = posId) = some idx)
    (hpos : s.positions[idx]? = some pos) :
    ((closePosition s posId exitPrice usdcReceived reason).1 =
      some { pos := pos, exitPrice := exitPrice, usdcReceived := usdcReceived,
             pnl := toFixed 4 (usdcReceived - pos.usdcSpent),
             pnlPercent := toFixed 2 ((usdcReceived - pos.usdcSpent) / pos.usdcSpent * 100),
             reason := reason } ∧
     (closePosition s posId exitPrice usdcReceived reason).2.positions =
       s.positions.eraseIdx idx ∧
     (closePosition s posId exitPrice usdcReceived reason).2.closedTrades =
       s.closedTrades ++
         [{ pos := pos, exitPrice := exitPrice, usdcReceived := usdcReceived,
            pnl := toFixed 4 (usdcReceived - pos.usdcSpent),
            pnlPercent := toFixed 2 ((usdcReceived - pos.usdcSpent) / pos.usdcSpent * 100),
            reason := reason }] ∧
     (closePosition s posId exitPrice usdcReceived reason).2.totalPnl =
       toFixed 4 (s.totalPnl + (usdcReceived - pos.usdcSpent)) ∧
     (closePosition s posId exitPrice usdcReceived reason).2.capitalUsdc =
       toFixed 4 (s.capitalUsdc + usdcReceived) ∧
     (FourDecimal s.totalPnl → FourDecimal usdcReceived → FourDecimal pos.usdcSpent →
       (closePosition s posId exitPrice usdcReceived reason).2.totalPnl =
         s.totalPnl + (usdcReceived - pos.usdcSpent)) ∧
     (FourDecimal s.capitalUsdc → FourDecimal usdcReceived →
       (closePosition s posId exitPrice usdcReceived reason).2.capitalUsdc =
         s.capitalUsdc + usdcReceived)) ∧
    ((closePosition state55 "p1" (85 / 100) (45 * (85 / 100)) "STOP_LOSS").2.capitalUsdc =
       9325 / 100 ∧
     (closePosition state55 "p1" (85 / 100) (45 * (85 / 100)) "STOP_LOSS").2.totalPnl =
       -(675 / 100)) := by
  refine ⟨closePosition_spec s posId exitPrice usdcReceived reason idx pos hidx hpos, ?_, ?_⟩
  · have h := (closePosition_spec state55 "p1" (85 / 100) (45 * (85 / 100)) "STOP_LOSS"
      0 pos45 rfl rfl).2.2.2.2.1
    rw [h]
    norm_num [state55, toFixed, round_eq]
  · have h := (closePosition_spec state55 "p1" (85 / 100) (45 * (85 / 100)) "STOP_LOSS"
      0 pos45 rfl rfl).2.2.2.1
    rw [h]
    norm_num [state55, pos45, toFixed, round_eq]

/-- C7 witness: closing the §8 position at $0.85 with four-decimal
amounts updates the totals exactly: `totalPnl` becomes
`0 + (38.25 − 45) = −6.75`. -/
theorem claim_C7_close_position_witness :
    (closePosition state55 "p1" (85 / 100) (45 * (85 / 100)) "STOP_LOSS").2.totalPnl =
      state55.totalPnl + (45 * (85 / 100) - pos45.usdcSpent) :=
  ((claim_C7_close_position state55 "p1" (85 / 100) (45 * (85 / 100)) "STOP_LOSS" 0 pos45
      rfl rfl).1).2.2.2.2.2.1
    ⟨0, by norm_num [state55]⟩ ⟨382500, by norm_num⟩ ⟨450000, by norm_num [pos45]⟩

/-- C9 witness: at entry 100, price 90, $50 notional both PnL numbers
are positive. -/
theorem claim_C9_short_pnl_witness :
    0 < (getShortPnl { entryPrice := 100, usdcSpent := 50 } 90).2 ∧
    0 < (getShortPnl { entryPrice := 100, usdcSpent := 50 } 90).1 :=
  ⟨((claim_C9_short_pnl.1 _ 90 (by norm_num)).2 (by norm_num)).1,
   ((claim_C9_short_pnl.1 _ 90 (by norm_num)).2 (by norm_num)).2 (by norm_num)⟩

/-- Helper: `jsOrNull` only returns values present in its input. -/
theorem jsOrNull_eq_some {o : Option ℚ} {v : ℚ} (h : jsOrNull o = some v) : o = some v := by
  cases o with
  | none => simp [jsOrNull] at h
  | some w =>
    by_cases hw : w = 0
    · simp [jsOrNull, hw] at h
    · simpa [jsOrNull, hw] using h

/-- Helper: loop invariant of `findGridLevelGo` — the accumulator is
either still empty or holds some level `l ≤ price` whose recorded sell
level is the next list entry (through `|| null`). -/
theorem findGridLevelGo_spec (price : ℚ) (full : List ℚ) :
    ∀ (sub : List ℚ) (acc : Option ℚ × Option ℚ), sub.IsSuffix full →
    (acc = (none, none) ∨
      ∃ l rest, (l :: rest).IsSuffix full ∧ l ≤ price ∧ acc = (some l, jsOrNull rest.head?)) →
    (findGridLevelGo price sub acc = (none, none) ∨
      ∃ l rest, (l :: rest).IsSuffix full ∧ l ≤ price ∧
        findGridLevelGo price sub acc = (some l, jsOrNull rest.head?)) := by
  intro sub
  induction sub with
  | nil => intro acc _ hacc; simpa [findGridLevelGo] using hacc
  | cons x rest ih =>
    intro acc hsub hacc
    rw [findGridLevelGo]
    by_cases hx : x ≤ price
    · rw [if_pos hx]
      exact ih _ ((List.suffix_cons x rest).trans hsub) (Or.inr ⟨x, rest, hsub, hx, rfl⟩)
    · rw [if_neg hx]
      exact ih _ ((List.suffix_cons x rest).trans hsub) hacc

/-- Helper: when `findGridLevel` yields both a buy and a sell level,
both are members of the level list, and on a strictly ascending level
list the sell level lies strictly above the buy level. -/
theorem findGridLevel_spec (price : ℚ) (levels : List ℚ) (bl sl : ℚ)
    (h : findGridLevel price levels = (some bl, some sl)) :
    bl ∈ levels ∧ sl ∈ levels ∧ (levels.Pairwise (· < ·) → bl < sl) := by
  have hspec := findGridLevelGo_spec price levels levels (none, none)
    (List.suffix_refl _) (Or.inl rfl)
  unfold findGridLevel at h
  rcases hspec with h0 | ⟨l, rest, hsuf, _, heq⟩
  · rw [h0] at h
    exact absurd h (by simp)
  · rw [heq] at h
    rw [Prod.mk.injEq] at h
    obtain ⟨hl, hs⟩ := h
    rw [Option.some.injEq] at hl
    subst hl
    have hrest : rest.head? = some sl := jsOrNull_eq_some hs
    have hslrest : sl ∈ rest := by
      cases rest with
      | nil => simp at hrest
      | cons r rs =>
        rw [List.head?_cons, Option.some.injEq] at hrest
        exact hrest ▸ List.mem_cons_self r rs
    refine ⟨hsuf.sublist.subset (List.mem_cons_self l rest),
      hsuf.sublist.subset (List.mem_cons_of_mem l hslrest), fun hp => ?_⟩
    exact (List.pairwise_cons.mp (hp.sublist hsuf.sublist)).1 sl hslrest

/-- Helper: the sell loop only removes filled buys, never adds any. -/
theorem sellPass_subset (env : FilledBuy → SellResult) (price cpl : ℚ) :
    ∀ (bs : List FilledBuy) (t : GridTotals), ∀ b ∈ (sellPass env price cpl bs t).1, b ∈ bs := by
  intro bs
  induction bs with
  | nil => intro t b hb; simp [sellPass] at hb
  | cons x rest ih =>
    intro t b hb
    rw [sellPass] at hb
    dsimp only at hb
    by_cases h1 : x.sellLevel ≤ price
    · rw [if_pos h1] at hb
      by_cases h2 : (env x).success
      · rw [if_pos h2] at hb
        exact List.mem_cons_of_mem x (ih t b hb)
      · rw [if_neg h2] at hb
        rcases List.mem_cons.mp hb with rfl | hb'
        · exact List.mem_cons_self _ _
        · exact List.mem_cons_of_mem x (ih t b hb')
    · rw [if_neg h1] at hb
      rcases List.mem_cons.mp hb with rfl | hb'
      · exact List.mem_cons_self _ _
      · exact List.mem_cons_of_mem x (ih t b hb')

/-- Helper: the buy phase either leaves the filled buys unchanged or
appends exactly one buy whose levels come from `findGridLevel`. -/
theorem buyPhase_spec (gcfg : GridConfig) (buyRes : BuyResult) (prevPrice currentPrice : ℚ)
    (tg : GridTokenState) (g : GridPortfolio) :
    (buyPhase gcfg buyRes prevPrice currentPrice tg g).1.filledBuys = tg.filledBuys ∨
    ∃ bl sl, findGridLevel currentPrice tg.gridLevels = (some bl, some sl) ∧
      (buyPhase gcfg buyRes prevPrice currentPrice tg g).1.filledBuys =
        tg.filledBuys ++ [{ level := bl, sellLevel := sl, amount := buyRes.outputAmount,
                            usdcSpent := tg.capitalPerLevel }] := by
  unfold buyPhase
  rcases hf : findGridLevel currentPrice tg.gridLevels with ⟨obl, osl⟩
  match obl, osl with
  | none, none => left; rfl
  | none, some sl => left; rfl
  | some bl, none => left; rfl
  | some bl, some sl =>
    repeat' split
    all_goals first
      | (left; rfl)
      | (right; exact ⟨bl, sl, rfl, by simp_all⟩)

/-- Helper: the buy phase preserves well-formedness of filled buys on
a strictly ascending level list. -/
theorem buyPhase_goodBuys (gcfg : GridConfig) (buyRes : BuyResult)
    (prevPrice currentPrice : ℚ) (tg : GridTokenState) (g : GridPortfolio)
    (levels : List ℚ) (hlev : tg.gridLevels = levels)
    (hsorted : levels.Pairwise (· < ·))
    (hprev : ∀ b ∈ tg.filledBuys, GoodBuy levels b) :
    ∀ b ∈ (buyPhase gcfg buyRes prevPrice currentPrice tg g).1.filledBuys,
      GoodBuy levels b := by
  subst hlev
  intro b hb
  rcases buyPhase_spec gcfg buyRes prevPrice currentPrice tg g with heq | ⟨bl, sl, hf, heq⟩
  · rw [heq] at hb
    exact hprev b hb
  · rw [heq] at hb
    rcases List.mem_append.mp hb with hb' | hb'
    · exact hprev b hb'
    · have hb'' : b = ⟨bl, sl, buyRes.outputAmount, tg.capitalPerLevel⟩ := by
        simpa using hb'
      subst hb''
      obtain ⟨hbl, hsl, hlt⟩ := findGridLevel_spec currentPrice tg.gridLevels bl sl hf
      have hblsl : bl < sl := hlt hsorted
      refine ⟨hbl, hsl, hblsl, fun top htop hmax hbeq => ?_⟩
      have hsltop : sl ≤ top := hmax sl hsl
      simp only at hbeq
      rw [hbeq] at hblsl
      exact absurd (lt_of_lt_of_le hblsl hsltop) (lt_irrefl top)

/-- C10: starting from a grid whose levels are strictly ascending and
whose filled buys are all well formed, every filled buy after a
`checkGrid` tick is still well formed — in particular every recorded
buy has a sell level strictly above its buy level, and no filled buy
ever sits at the topmost grid level. -/
theorem claim_C10_new_buys_resolvable (gcfg : GridConfig) (sellEnv : FilledBuy → SellResult)
    (buyRes : BuyResult) (priceData : Option ℚ) (tg : GridTokenState) (g : GridPortfolio)
    (hsorted : tg.gridLevels.Pairwise (· < ·))
    (hold : ∀ b ∈ tg.filledBuys, GoodBuy tg.gridLevels b) :
    ∀ b ∈ (checkGrid gcfg sellEnv buyRes priceData tg g).1.filledBuys,
      GoodBuy tg.gridLevels b := by
  intro b hb
  unfold checkGrid at hb
  split at hb
  · exact hold b hb
  · split at hb
    · exact hold b hb
    · rename_i currentPrice
      dsimp only at hb
      refine buyPhase_goodBuys _ _ _ _ _ _ _ ?_ ?_ ?_ b hb
      · rfl
      · exact hsorted
      · intro b' hb'
        exact hold b'
          (sellPass_subset sellEnv currentPrice tg.capitalPerLevel tg.filledBuys
            { tokenPnl := tg.pnl, tokenTrades := tg.trades, totalPnl := g.totalPnl,
              totalTrades := g.totalTrades, capitalAllocated := g.capitalAllocated } b' hb')

/-- C10 witness: from a fresh 98/100/102 grid at previous price 101, a
tick at price 100 records the filled buy `(100 → 102)`, and it is well
formed. -/
theorem claim_C10_new_buys_resolvable_witness :
    GoodBuy tgDemo.gridLevels
      { level := 100, sellLevel := 102, amount := 7, usdcSpent := 5 } := by
  have hmem : ({ level := 100, sellLevel := 102, amount := 7, usdcSpent := 5 } : FilledBuy)
      ∈ (checkGrid gcfgDemo sellEnvDemo buyResDemo (some 100) tgDemo gDemo).1.filledBuys := by
    norm_num [checkGrid, buyPhase, sellPass, findGridLevel, findGridLevelGo,
      jsOr, jsOrNull, tgDemo, gDemo, gcfgDemo, sellEnvDemo, buyResDemo]
  exact claim_C10_new_buys_resolvable gcfgDemo sellEnvDemo buyResDemo (some 100) tgDemo gDemo
    (by norm_num [tgDemo]) (by simp [tgDemo]) _ hmem

/-- C1: concrete evaluation of a full buy-then-sell round trip at one
level.  With the `grid.js` defaults (`setupGrid` having reserved $25 of
the $30 cap), the buy at level 100 raises `capitalAllocated` to $30;
the sell at 102 removes the filled buy and realises its PnL, but
`capitalAllocated` stays at $30 — it does not return to the $25
pre-buy baseline (net change +$5, the `capitalPerLevel`), and the next
downward cross at the same level cannot buy again for lack of grid
capital. -/
theorem claim_C1_round_trip_capital_leak :
    gDemo.capitalAllocated = 25 ∧
    gridStep1.1.filledBuys =
      [{ level := 100, sellLevel := 102, amount := 7, usdcSpent := 5 }] ∧
    gridStep1.2.capitalAllocated = 30 ∧
    gridStep2.1.filledBuys = [] ∧
    gridStep2.2.totalPnl = 1 / 10 ∧
    gridStep2.2.totalTrades = 1 ∧
    gridStep2.2.capitalAllocated = 30 ∧
    ¬ gridStep2.2.capitalAllocated = gDemo.capitalAllocated ∧
    gridStep3.1.filledBuys = [] := by
  have hs1 : gridStep1 =
      (tgAfterBuy, { totalPnl := 0, totalTrades := 0, capitalAllocated := 30 }) := by
    norm_num [gridStep1, checkGrid, buyPhase, sellPass, findGridLevel, findGridLevelGo,
      jsOr, jsOrNull, tgDemo, gDemo, gcfgDemo, sellEnvDemo, buyResDemo, tgAfterBuy, fbDemo]
  have hs2 : gridStep2 =
      (tgAfterSell, { totalPnl := 1 / 10, totalTrades := 1, capitalAllocated := 30 }) := by
    rw [gridStep2, hs1]
    norm_num [checkGrid, buyPhase, sellPass, findGridLevel, findGridLevelGo,
      jsOr, jsOrNull, tgDemo, gcfgDemo, sellEnvDemo, buyResDemo, tgAfterBuy, tgAfterSell, fbDemo]
  have hs3 : gridStep3 =
      (tgAfterThird, { totalPnl := 1 / 10, totalTrades := 1, capitalAllocated := 30 }) := by
    rw [gridStep3, hs2]
    norm_num [checkGrid, buyPhase, sellPass, findGridLevel, findGridLevelGo,
      jsOr, jsOrNull, tgDemo, gcfgDemo, sellEnvDemo, buyResDemo, tgAfterSell, tgAfterThird]
  rw [hs1, hs2, hs3]
  norm_num [gDemo, tgAfterBuy, tgAfterSell, tgAfterThird, fbDemo]

/-- Helper: every signal collected by the candidate loop scores at
least 35 (the loop only pushes such signals). -/
theorem collectSignals_score (sqrtQ : ℚ → ℚ) (spikeMult : ℚ) (now : ℤ) :
    ∀ (candidates : List Token) (h : PriceHistory),
      ∀ s ∈ (collectSignals sqrtQ spikeMult now candidates h).1, 35 ≤ s.score := by
  intro candidates
  induction candidates with
  | nil => intro h s hs; simp [collectSignals] at hs
  | cons t rest ih =>
    intro h s hs
    rw [collectSignals] at hs
    dsimp only at hs
    rcases List.mem_append.mp hs with h1 | h1
    · rcases List.mem_append.mp h1 with h2 | h2
      · by_cases hm : 35 ≤ (analyzeMomentum spikeMult t).score
        · rw [if_pos hm, List.mem_singleton] at h2
          exact h2 ▸ hm
        · rw [if_neg hm] at h2
          simp at h2
      · by_cases hm : 35 ≤ (analyzeMeanReversion sqrtQ now
            (recordPrice h t.mint t.price now) t).1.score
        · rw [if_pos hm, List.mem_singleton] at h2
          exact h2 ▸ hm
        · rw [if_neg hm] at h2
          simp at h2
    · exact ih _ s h1

/-- Helper: the dedup loop returns a sublist of its input. -/
theorem dedupByMint_sublist :
    ∀ (l : List Signal) (seen : List String), List.Sublist (dedupByMint l seen) l := by
  intro l
  induction l with
  | nil => intro seen; simp [dedupByMint]
  | cons x rest ih =>
    intro seen
    rw [dedupByMint]
    split_ifs
    · exact (ih seen).trans (List.sublist_cons_self x rest)
    · exact (ih _).cons₂ x

/-- Helper: nothing returned by the dedup loop has a mint in the
`seen` set. -/
theorem dedupByMint_not_seen :
    ∀ (l : List Signal) (seen : List String) (s : Signal),
      s ∈ dedupByMint l seen → s.mint ∉ seen := by
  intro l
  induction l with
  | nil => intro seen s hs; simp [dedupByMint] at hs
  | cons x rest ih =>
    intro seen s hs
    rw [dedupByMint] at hs
    split_ifs at hs with hx
    · exact ih seen s hs
    · rcases List.mem_cons.mp hs with rfl | hs'
      · exact hx
      · intro hmem
        exact ih _ s hs' (List.mem_cons_of_mem _ hmem)

/-- Helper: the mints returned by the dedup loop are pairwise
distinct. -/
theorem dedupByMint_nodup :
    ∀ (l : List Signal) (seen : List String),
      ((dedupByMint l seen).map (fun s => s.mint)).Nodup := by
  intro l
  induction l with
  | nil => intro seen; simp [dedupByMint]
  | cons x rest ih =>
    intro seen
    rw [dedupByMint]
    split_ifs with hx
    · exact ih seen
    · simp only [List.map_cons, List.nodup_cons]
      refine ⟨fun hmem => ?_, ih _⟩
      obtain ⟨s, hs, hms⟩ := List.mem_map.mp hmem
      exact dedupByMint_not_seen _ _ s hs (hms ▸ List.mem_cons_self x.mint seen)

/-- Helper: on a list sorted descending by score, the dedup loop keeps
for each mint a signal of maximal score. -/
theorem dedupByMint_max :
    ∀ (l : List Signal) (seen : List String),
      l.Pairwise (fun a b => b.score ≤ a.score) →
      ∀ s ∈ dedupByMint l seen, ∀ a ∈ l, a.mint = s.mint → a.score ≤ s.score := by
  intro l
  induction l with
  | nil => intro seen _ s hs; simp [dedupByMint] at hs
  | cons x rest ih =>
    intro seen hp s hs a ha hmint
    obtain ⟨hx, hrest⟩ := List.pairwise_cons.mp hp
    rw [dedupByMint] at hs
    split_ifs at hs with hseen
    · rcases List.mem_cons.mp ha with rfl | ha'
      · exact absurd (hmint ▸ hseen) (dedupByMint_not_seen rest seen s hs)
      · exact ih seen hrest s hs a ha' hmint
    · rcases List.mem_cons.mp hs with rfl | hs'
      · rcases List.mem_cons.mp ha with rfl | ha'
        · exact le_refl _
        · exact hx a ha'
      · rcases List.mem_cons.mp ha with rfl | ha'
        · exact absurd (hmint ▸ List.mem_cons_self a.mint seen)
            (dedupByMint_not_seen rest _ s hs')
        · exact ih _ hrest s hs' a ha' hmint

/-- Helper: the sorted signal list is pairwise descending in score. -/
theorem detectSignals_sorted_aux (l : List Signal) :
    (l.mergeSort (fun a b => b.score ≤ a.score)).Pairwise
      (fun a b => b.score ≤ a.score) := by
  have h := @List.sorted_mergeSort Signal (fun a b : Signal => decide (b.score ≤ a.score))
    (fun a b c h1 h2 => by
      simp only [decide_eq_true_eq] at *
      exact le_trans h2 h1)
    (fun a b => by
      simp only [Bool.or_eq_true, decide_eq_true_eq]
      exact le_total b.score a.score)
    l
  exact h.imp (fun hab => by simpa using hab)

/-- C6: for every candidate list and history, `detectSignals` returns
at most one entry per mint, every returned entry scores at least 35,
the output is sorted descending by score, every returned entry is one
of the collected strategy signals, and it scores at least as high as
every collected signal for the same mint (so when both strategies
qualify for one token, the higher-scoring one is kept). -/
theorem claim_C6_detect_signals (sqrtQ : ℚ → ℚ) (spikeMult : ℚ) (now : ℤ)
    (candidates : List Token) (h0 : PriceHistory) :
    (((detectSignals sqrtQ spikeMult now candidates h0).1.map (fun s => s.mint)).Nodup) ∧
    (∀ s ∈ (detectSignals sqrtQ spikeMult now candidates h0).1, 35 ≤ s.score) ∧
    ((detectSignals sqrtQ spikeMult now candidates h0).1.Pairwise
      (fun a b => b.score ≤ a.score)) ∧
    (∀ s ∈ (detectSignals sqrtQ spikeMult now candidates h0).1,
      s ∈ (collectSignals sqrtQ spikeMult now candidates h0).1) ∧
    (∀ s ∈ (detectSignals sqrtQ spikeMult now candidates h0).1,
      ∀ a ∈ (collectSignals sqrtQ spikeMult now candidates h0).1,
        a.mint = s.mint → a.score ≤ s.score) := by
  have hperm : List.Perm ((collectSignals sqrtQ spikeMult now candidates h0).1.mergeSort
      (fun a b => b.score ≤ a.score)) (collectSignals sqrtQ spikeMult now candidates h0).1 :=
    List.mergeSort_perm _ _
  have hsorted := detectSignals_sorted_aux (collectSignals sqrtQ spikeMult now candidates h0).1
  have hsub : List.Sublist (detectSignals sqrtQ spikeMult now candidates h0).1
      ((collectSignals sqrtQ spikeMult now candidates h0).1.mergeSort
        (fun a b => b.score ≤ a.score)) :=
    dedupByMint_sublist _ []
  refine ⟨dedupByMint_nodup _ [], fun s hs => ?_, ?_, fun s hs => ?_, fun s hs a ha hm => ?_⟩
  · exact collectSignals_score sqrtQ spikeMult now candidates h0 s
      (hperm.mem_iff.mp (hsub.subset hs))
  · exact hsorted.sublist hsub
  · exact hperm.mem_iff.mp (hsub.subset hs)
  · exact dedupByMint_max _ [] hsorted s hs a (hperm.mem_iff.mpr ha) hm

/-- C6 witness: on a single oversold candidate the mean-reversion
strategy fires once; the output has one entry, distinct mints, score
at least 35 and it dominates all collected signals for its mint. -/
theorem claim_C6_detect_signals_witness :
    ((detectSignals (fun _ => 0) 3 0 [tokDemo] []).1.map (fun s => s.mint)).Nodup ∧
    ∀ s ∈ (detectSignals (fun _ => 0) 3 0 [tokDemo] []).1, 35 ≤ s.score :=
  ⟨(claim_C6_detect_signals (fun _ => 0) 3 0 [tokDemo] []).1,
   (claim_C6_detect_signals (fun _ => 0) 3 0 [tokDemo] []).2.1⟩

end TradingBot
